import Mathlib

/-!
Shallow embedding of the fallback positioning engine of the
anchor-position-fallback-test repository: geometry utilities, best-side
selection, placement style application, viewport clamping, and the two
update strategies. Pixel quantities are modelled as rationals. Inline
style lengths that the source writes as px strings are modelled by their
numeric values, and a reset inline style value is modelled by `none`
(for lengths) or the empty string (for transform and position).
-/

set_option autoImplicit false

/-- Rectangle in viewport pixel coordinates, mirroring DOMRect. -/
structure Rect where
  top : ℚ
  right : ℚ
  bottom : ℚ
  left : ℚ
  width : ℚ
  height : ℚ
deriving DecidableEq, Repr

/-- TAvailableSpace: available space in each direction from the trigger. -/
structure TAvailableSpace where
  top : ℚ
  right : ℚ
  bottom : ℚ
  left : ℚ
deriving DecidableEq, Repr

/-- TBasePlacement: base placement directions. -/
inductive TBasePlacement where
  | top
  | right
  | bottom
  | left
deriving DecidableEq, Repr

/-- TPosition from components/popover.tsx: the desired logical position. -/
inductive TPosition where
  | inlineEnd
  | blockEnd
  | blockEndTriggerInlineStart
deriving DecidableEq, Repr

/-- Field lookup mirroring the JS index access available[side]. -/
def TAvailableSpace.get (a : TAvailableSpace) : TBasePlacement → ℚ
  | .top => a.top
  | .right => a.right
  | .bottom => a.bottom
  | .left => a.left

/-- getAvailableSpace, defined identically in placement-utils.ts and in
fallback-positioning.ts: raw distances from the trigger edges to the
viewport edges, never clamped. The source reads window.innerWidth and
window.innerHeight; they are passed here as parameters. -/
def getAvailableSpace (triggerRect : Rect) (viewportWidth viewportHeight : ℚ) :
    TAvailableSpace where
  top := triggerRect.top
  right := viewportWidth - triggerRect.right
  bottom := viewportHeight - triggerRect.bottom
  left := triggerRect.left

/-- getOppositePlacement from placement-utils.ts. -/
def getOppositePlacement : TBasePlacement → TBasePlacement
  | .top => .bottom
  | .bottom => .top
  | .left => .right
  | .right => .left

/-- The spaceNeeded record built inside getBestBasePlacement:
the popover size on the relevant axis plus the gap. -/
def spaceNeeded (popoverRect : Rect) (gap : ℚ) : TBasePlacement → ℚ
  | .top => popoverRect.height + gap
  | .bottom => popoverRect.height + gap
  | .left => popoverRect.width + gap
  | .right => popoverRect.width + gap

/-- The final fallback of getBestBasePlacement: the head of
Object.entries(available).sort((a, b) => b[1] - a[1]). Object.entries
enumerates the fields in insertion order top, right, bottom, left, and
the ECMAScript sort is stable, so the head of the descending sort is the
earliest field among those holding the maximum value. -/
def mostSpaceSide (a : TAvailableSpace) : TBasePlacement :=
  if a.top ≥ a.right ∧ a.top ≥ a.bottom ∧ a.top ≥ a.left then .top
  else if a.right ≥ a.bottom ∧ a.right ≥ a.left then .right
  else if a.bottom ≥ a.left then .bottom
  else .left

/-- getBestBasePlacement from placement-utils.ts: desired side if it
fits, else the opposite side if it fits, else the perpendicular sides in
a fixed order, else the side with the most available space. -/
def getBestBasePlacement (desired : TBasePlacement) (available : TAvailableSpace)
    (popoverRect : Rect) (gap : ℚ) : TBasePlacement :=
  let need := spaceNeeded popoverRect gap
  if available.get desired ≥ need desired then desired
  else if available.get (getOppositePlacement desired) ≥ need (getOppositePlacement desired) then
    getOppositePlacement desired
  else if desired = .top ∨ desired = .bottom then
    if available.right ≥ need .right then .right
    else if available.left ≥ need .left then .left
    else mostSpaceSide available
  else
    if available.bottom ≥ need .bottom then .bottom
    else if available.top ≥ need .top then .top
    else mostSpaceSide available

/-- getBestInlinePlacement from fallback-positioning.ts. -/
def getBestInlinePlacement (available : TAvailableSpace) : TBasePlacement :=
  if available.right ≥ available.left then .right else .left

/-- getBestBlockPlacement from fallback-positioning.ts. -/
def getBestBlockPlacement (available : TAvailableSpace) : TBasePlacement :=
  if available.bottom ≥ available.top then .bottom else .top

/-- getPlacementFromPosition from fallback-positioning.ts: the inline
axis for inline-end, the block axis for the two block-end positions. -/
def getPlacementFromPosition (position : TPosition) (available : TAvailableSpace) :
    TBasePlacement :=
  match position with
  | .inlineEnd => getBestInlinePlacement available
  | _ => getBestBlockPlacement available

/-- The twelve TPlacement string values from placement-utils.ts. -/
def allPlacements : List String :=
  ["top", "top-start", "top-end",
   "bottom", "bottom-start", "bottom-end",
   "left", "left-start", "left-end",
   "right", "right-start", "right-end"]

/-- JavaScript String.prototype.startsWith, modelled on the underlying
character lists of the two strings. -/
def strStartsWith (s p : String) : Bool := p.data.isPrefixOf s.data

/-- JavaScript String.prototype.endsWith, modelled on the underlying
character lists of the two strings. -/
def strEndsWith (s p : String) : Bool := p.data.isSuffixOf s.data

/-- getBasePlacement from placement-utils.ts, on placement strings. -/
def getBasePlacement (placement : String) : String :=
  if strStartsWith placement "top" then "top"
  else if strStartsWith placement "bottom" then "bottom"
  else if strStartsWith placement "left" then "left"
  else "right"

/-- getAlignment from placement-utils.ts, on placement strings. -/
def getAlignment (placement : String) : String :=
  if strEndsWith placement "-start" then "start"
  else if strEndsWith placement "-end" then "end"
  else "center"

/-- buildPlacement from placement-utils.ts: the base placement for a
center alignment, otherwise the dash-joined pair. -/
def buildPlacement (base alignment : String) : String :=
  if alignment = "center" then base else base ++ "-" ++ alignment

/-- GAP constant of fallback-positioning.ts and of the transform-based
variant: 4 pixels between the trigger and the popover. -/
def GAP : ℚ := 4

/-- GAP constant of the arrow-aware module: 8 pixels. -/
def arrowGap : ℚ := 8

/-- Inline style block of an element. The six properties that the
positioning core writes are explicit fields; `rest` stands for every
other inline style property of the element. A length value of `none`
models the reset empty string. -/
structure InlineStyle where
  position : String := ""
  top : Option ℚ := none
  left : Option ℚ := none
  right : Option ℚ := none
  bottom : Option ℚ := none
  transform : String := ""
  rest : String := ""
deriving DecidableEq, Repr

/-- getHorizontalPosition from fallback-positioning.ts: the trigger left
edge for the start-aligned position, otherwise horizontal centering of
the measured popover against the trigger. -/
def getHorizontalPosition (position : TPosition) (triggerRect popoverRect : Rect) : ℚ :=
  match position with
  | .blockEndTriggerInlineStart => triggerRect.left
  | _ => triggerRect.left + (triggerRect.width - popoverRect.width) / 2

/-- applyPlacementStyles from fallback-positioning.ts (the measured
variant): writes top and left from the trigger and popover rectangles. -/
def applyPlacementStylesMeasured (s : InlineStyle) (placement : TBasePlacement)
    (position : TPosition) (triggerRect popoverRect : Rect) : InlineStyle :=
  match placement with
  | .top =>
    { s with top := some (triggerRect.top - popoverRect.height - GAP),
             left := some (getHorizontalPosition position triggerRect popoverRect) }
  | .bottom =>
    { s with top := some (triggerRect.bottom + GAP),
             left := some (getHorizontalPosition position triggerRect popoverRect) }
  | .left =>
    { s with left := some (triggerRect.left - popoverRect.width - GAP),
             top := some (triggerRect.top + (triggerRect.height - popoverRect.height) / 2) }
  | .right =>
    { s with left := some (triggerRect.right + GAP),
             top := some (triggerRect.top + (triggerRect.height - popoverRect.height) / 2) }

/-- Bounding box of the popover: left and top edges plus size, with
right = left + width and bottom = top + height. Used by the viewport
clamp, which measures the popover once and then rewrites style
coordinates; for an element with fixed positioning the style left and
top are the bounding box left and top. -/
structure Box where
  left : ℚ
  top : ℚ
  width : ℚ
  height : ℚ
deriving DecidableEq, Repr

/-- constrainToViewport from fallback-positioning.ts at the bounding box
level. The four conditions all test the rectangle measured once at
entry; the two writes to style.left are sequential, so when both fire
the second one (the right-edge clamp) is the value that remains, and
likewise for style.top. -/
def constrainToViewport (b : Box) (viewportWidth viewportHeight : ℚ) : Box :=
  let b1 := if b.left < 0 then { b with left := 0 } else b
  let b2 := if b.left + b.width > viewportWidth then
    { b1 with left := viewportWidth - b.width } else b1
  let b3 := if b.top < 0 then { b2 with top := 0 } else b2
  if b.top + b.height > viewportHeight then
    { b3 with top := viewportHeight - b.height } else b3

/-- constrainToViewport at the inline style level, used by the measured
placement pass: `measured` is the bounding box read from the DOM at
entry to the function. -/
def constrainToViewportStyle (s : InlineStyle) (measured : Box)
    (viewportWidth viewportHeight : ℚ) : InlineStyle :=
  let s1 := if measured.left < 0 then { s with left := some 0 } else s
  let s2 := if measured.left + measured.width > viewportWidth then
    { s1 with left := some (viewportWidth - measured.width) } else s1
  let s3 := if measured.top < 0 then { s2 with top := some 0 } else s2
  if measured.top + measured.height > viewportHeight then
    { s3 with top := some (viewportHeight - measured.height) } else s3

/-- applyPlacement from fallback-positioning.ts: one measured placement
pass. It reads both rectangles, resets the previous positioning, sets
fixed positioning, applies the placement styles and then clamps to the
viewport. The trigger element is only read, never written, so the pass
is a pair whose second component is the trigger style passed through.
`measuredAfterApply` is the popover bounding box that
constrainToViewport reads from the DOM after the placement styles have
been applied. -/
def applyPlacementMeasured (popover trigger : InlineStyle)
    (triggerRect popoverRect : Rect) (position : TPosition)
    (measuredAfterApply : Box) (viewportWidth viewportHeight : ℚ) :
    InlineStyle × InlineStyle :=
  let available := getAvailableSpace triggerRect viewportWidth viewportHeight
  let placement := getPlacementFromPosition position available
  let reset := { popover with top := none, left := none, right := none, bottom := none,
                              position := "fixed" }
  let placed := applyPlacementStylesMeasured reset placement position triggerRect popoverRect
  (constrainToViewportStyle placed measuredAfterApply viewportWidth viewportHeight, trigger)

/-- applyPlacementStyles of the transform-based variant: positions are
anchored to trigger edges or centers and a CSS transform offsets the
popover by fractions of its own size, so the popover is never measured. -/
def applyPlacementStylesTransform (s : InlineStyle) (placement : TBasePlacement)
    (position : TPosition) (triggerRect : Rect) : InlineStyle :=
  match placement with
  | .top =>
    let s := { s with top := some (triggerRect.top - GAP) }
    match position with
    | .blockEndTriggerInlineStart =>
      { s with left := some triggerRect.left, transform := "translateY(-100%)" }
    | _ =>
      { s with left := some (triggerRect.left + triggerRect.width / 2),
               transform := "translate(-50%, -100%)" }
  | .bottom =>
    let s := { s with top := some (triggerRect.bottom + GAP) }
    match position with
    | .blockEndTriggerInlineStart =>
      { s with left := some triggerRect.left }
    | _ =>
      { s with left := some (triggerRect.left + triggerRect.width / 2),
               transform := "translateX(-50%)" }
  | .left =>
    { s with left := some (triggerRect.left - GAP),
             top := some (triggerRect.top + triggerRect.height / 2),
             transform := "translate(-100%, -50%)" }
  | .right =>
    { s with left := some (triggerRect.right + GAP),
             top := some (triggerRect.top + triggerRect.height / 2),
             transform := "translateY(-50%)" }

/-- applyPlacement of the transform-based variant: reads the trigger
rectangle, picks the placement from available space, resets top, left
and transform, sets fixed positioning and applies the placement styles.
The trigger style is passed through untouched. -/
def applyPlacementTransform (popover trigger : InlineStyle) (triggerRect : Rect)
    (position : TPosition) (viewportWidth viewportHeight : ℚ) :
    InlineStyle × InlineStyle :=
  let available := getAvailableSpace triggerRect viewportWidth viewportHeight
  let placement := getPlacementFromPosition position available
  let reset := { popover with top := none, left := none, transform := "",
                              position := "fixed" }
  (applyPlacementStylesTransform reset placement position triggerRect, trigger)

/-- applyPlacement of the arrow-aware module: derives base and alignment
from the actual placement string and writes top, left and transform
after resetting them, using the 8 pixel gap. The trigger style is passed
through untouched. -/
def applyPlacementArrow (popover trigger : InlineStyle) (actualPlacement : String)
    (triggerRect : Rect) : InlineStyle × InlineStyle :=
  let base := getBasePlacement actualPlacement
  let alignment := getAlignment actualPlacement
  let s := { popover with top := none, left := none, right := none, bottom := none,
                          transform := "", position := "fixed" }
  let s :=
    if base = "top" then
      let s := { s with top := some (triggerRect.top - arrowGap) }
      if alignment = "start" then
        { s with left := some triggerRect.left, transform := "translateY(-100%)" }
      else if alignment = "end" then
        { s with left := some triggerRect.right, transform := "translate(-100%, -100%)" }
      else
        { s with left := some (triggerRect.left + triggerRect.width / 2),
                 transform := "translate(-50%, -100%)" }
    else if base = "bottom" then
      let s := { s with top := some (triggerRect.bottom + arrowGap) }
      if alignment = "start" then
        { s with left := some triggerRect.left }
      else if alignment = "end" then
        { s with left := some triggerRect.right, transform := "translateX(-100%)" }
      else
        { s with left := some (triggerRect.left + triggerRect.width / 2),
                 transform := "translateX(-50%)" }
    else if base = "left" then
      let s := { s with left := some (triggerRect.left - arrowGap) }
      if alignment = "start" then
        { s with top := some triggerRect.top, transform := "translateX(-100%)" }
      else if alignment = "end" then
        { s with top := some triggerRect.bottom, transform := "translate(-100%, -100%)" }
      else
        { s with top := some (triggerRect.top + triggerRect.height / 2),
                 transform := "translate(-100%, -50%)" }
    else
      let s := { s with left := some (triggerRect.right + arrowGap) }
      if alignment = "start" then
        { s with top := some triggerRect.top }
      else if alignment = "end" then
        { s with top := some triggerRect.bottom, transform := "translateY(-100%)" }
      else
        { s with top := some (triggerRect.top + triggerRect.height / 2),
                 transform := "translateY(-50%)" }
  (s, trigger)

/-- Host actions delivered to the per-frame update loop of
bindUpdateEachFrame. `fire` is the host running the queued animation
frame callback; `fireDisposing` is the same, but with the update
function invoking the returned cleanup while the pass runs; `dispose` is
the caller invoking the returned cleanup between frames. -/
inductive FrameAct where
  | fire
  | fireDisposing
  | dispose
deriving DecidableEq, Repr

/-- State of one bindUpdateEachFrame binding: the id of the queued
animation frame if one is queued, the frameId variable of the closure,
the next id the host will hand out, the isRunning liveness flag, and a
count of completed placement passes. -/
structure FrameState where
  pending : Option Nat
  frameId : Nat
  nextId : Nat
  isRunning : Bool
  passes : Nat
deriving DecidableEq, Repr

/-- State right after bindUpdateEachFrame returns: isRunning is true and
the first frame, with id 0, has been requested; no pass has run yet. -/
def frameInit : FrameState :=
  { pending := some 0, frameId := 0, nextId := 1, isRunning := true, passes := 0 }

/-- cancelAnimationFrame(frameId): removes the queued callback when its
id is the one stored in frameId. -/
def cancelFrame (s : FrameState) : FrameState :=
  if s.pending = some s.frameId then { s with pending := none } else s

/-- One host step of the per-frame loop. Running the tick callback
removes it from the queue, runs one placement pass, and then requests
the next frame only if isRunning still holds; the cleanup clears
isRunning and cancels the stored frame id. -/
def frameStep (a : FrameAct) (s : FrameState) : FrameState :=
  match a with
  | .fire =>
    match s.pending with
    | none => s
    | some _ =>
      let t := { s with pending := none, passes := s.passes + 1 }
      if t.isRunning then
        { t with pending := some t.nextId, frameId := t.nextId, nextId := t.nextId + 1 }
      else t
  | .fireDisposing =>
    match s.pending with
    | none => s
    | some _ =>
      let t := { s with pending := none, passes := s.passes + 1 }
      cancelFrame { t with isRunning := false }
  | .dispose =>
    cancelFrame { s with isRunning := false }

/-- A sequence of host steps of the per-frame loop. -/
def frameRun (acts : List FrameAct) (s : FrameState) : FrameState :=
  acts.foldl (fun s a => frameStep a s) s

/-- Host actions delivered to a bindUpdateOnChange binding: a scroll or
resize event, the same with the update function invoking the cleanup
mid-pass, and the caller invoking the cleanup directly. -/
inductive ChangeAct where
  | event
  | eventDisposing
  | dispose
deriving DecidableEq, Repr

/-- State of one bindUpdateOnChange binding: whether the scroll and
resize listeners are currently bound, and a count of completed
placement passes. -/
structure ChangeState where
  bound : Bool
  passes : Nat
deriving DecidableEq, Repr

/-- State right after bindUpdateOnChange returns: updateFn has run once
and the listeners are bound. -/
def changeInit : ChangeState := { bound := true, passes := 1 }

/-- Modelled from the spec: the unbind function returned by the external
bindAll helper of the bind-event-listener package removes the scroll and
resize listeners, and the host only invokes listeners that are still
bound when an event is delivered, so an event delivered after unbinding
runs no placement pass. -/
def changeStep (a : ChangeAct) (s : ChangeState) : ChangeState :=
  match a with
  | .event => if s.bound then { s with passes := s.passes + 1 } else s
  | .eventDisposing => if s.bound then { bound := false, passes := s.passes + 1 } else s
  | .dispose => { s with bound := false }

/-- A sequence of host steps of an on-change binding. -/
def changeRun (acts : List ChangeAct) (s : ChangeState) : ChangeState :=
  acts.foldl (fun s a => changeStep a s) s

/-- C5: for every available-space record with left equal to right, the
inline-axis selection returns right, and with top equal to bottom the
block-axis selection returns bottom: ties always favor right over left
and bottom over top. -/
theorem spec_C5 (a : TAvailableSpace) :
    (a.left = a.right → getBestInlinePlacement a = .right) ∧
    (a.top = a.bottom → getBestBlockPlacement a = .bottom) := by
  constructor
  · intro h
    simp [getBestInlinePlacement, h]
  · intro h
    simp [getBestBlockPlacement, h]

/-- Witness for C5 at the tied record with 5 on the inline axis and 3 on
the block axis. -/
theorem spec_C5_witness :
    getBestInlinePlacement ⟨3, 5, 3, 5⟩ = .right ∧
    getBestBlockPlacement ⟨3, 5, 3, 5⟩ = .bottom :=
  ⟨(spec_C5 ⟨3, 5, 3, 5⟩).1 rfl, (spec_C5 ⟨3, 5, 3, 5⟩).2 rfl⟩

/-- C6: for every trigger rectangle whose right and bottom edges are
consistent with its width and height, getAvailableSpace satisfies the
additivity laws left + right + width = viewport width and
top + bottom + height = viewport height, and returns exactly the raw
unclamped distances. -/
theorem spec_C6 (R : Rect) (W H : ℚ)
    (hr : R.right = R.left + R.width) (hb : R.bottom = R.top + R.height) :
    (getAvailableSpace R W H).left + (getAvailableSpace R W H).right + R.width = W ∧
    (getAvailableSpace R W H).top + (getAvailableSpace R W H).bottom + R.height = H ∧
    getAvailableSpace R W H = ⟨R.top, W - R.right, H - R.bottom, R.left⟩ := by
  refine ⟨?_, ?_, rfl⟩ <;> simp [getAvailableSpace] <;> linarith

/-- Witness for C6 at a trigger sticking out of a 50 by 30 viewport, so
that the right and bottom components are negative. -/
theorem spec_C6_witness :
    (getAvailableSpace ⟨-5, 110, 40, 10, 100, 45⟩ 50 30).left +
      (getAvailableSpace ⟨-5, 110, 40, 10, 100, 45⟩ 50 30).right +
      (⟨-5, 110, 40, 10, 100, 45⟩ : Rect).width = 50 ∧
    (getAvailableSpace ⟨-5, 110, 40, 10, 100, 45⟩ 50 30).top +
      (getAvailableSpace ⟨-5, 110, 40, 10, 100, 45⟩ 50 30).bottom +
      (⟨-5, 110, 40, 10, 100, 45⟩ : Rect).height = 30 ∧
    getAvailableSpace ⟨-5, 110, 40, 10, 100, 45⟩ 50 30 = ⟨-5, 50 - 110, 30 - 40, 10⟩ :=
  spec_C6 ⟨-5, 110, 40, 10, 100, 45⟩ 50 30 (by norm_num) (by norm_num)

/-- C10: splitting any of the twelve full placement values into its base
placement and alignment and recombining them with buildPlacement is the
identity. -/
theorem spec_C10 (p : String) (hp : p ∈ allPlacements) :
    buildPlacement (getBasePlacement p) (getAlignment p) = p := by
  fin_cases hp <;> decide

/-- Witness for C10 at the placement top-start. -/
theorem spec_C10_witness :
    "top-start" ∈ allPlacements ∧
    buildPlacement (getBasePlacement "top-start") (getAlignment "top-start") = "top-start" :=
  ⟨by decide, spec_C10 "top-start" (by decide)⟩

/-- C7: for the trigger rectangle with top 10, left 10, right 110 and
bottom 40 in a 1000 by 800 viewport with desired position inline-end,
the available space is top 10, right 890, bottom 760, left 10, the
chosen side is right, and the transform-based pass sets left to 114,
top to 25 and the transform to translateY(-50%). -/
theorem spec_C7 :
    getAvailableSpace ⟨10, 110, 40, 10, 100, 30⟩ 1000 800 = ⟨10, 890, 760, 10⟩ ∧
    getPlacementFromPosition .inlineEnd
      (getAvailableSpace ⟨10, 110, 40, 10, 100, 30⟩ 1000 800) = .right ∧
    (applyPlacementTransform {} {} ⟨10, 110, 40, 10, 100, 30⟩ .inlineEnd 1000 800).1.left =
      some 114 ∧
    (applyPlacementTransform {} {} ⟨10, 110, 40, 10, 100, 30⟩ .inlineEnd 1000 800).1.top =
      some 25 ∧
    (applyPlacementTransform {} {} ⟨10, 110, 40, 10, 100, 30⟩ .inlineEnd 1000 800).1.transform =
      "translateY(-50%)" := by
  refine ⟨?_, ?_, ?_, ?_, ?_⟩ <;>
    norm_num [getAvailableSpace, getPlacementFromPosition, getBestInlinePlacement,
      applyPlacementTransform, applyPlacementStylesTransform, GAP]

/-- Closed form of the clamp: because every condition tests the box
measured at entry and the second write to each coordinate overwrites the
first, the edge-overflow clamp wins over the zero clamp on each axis. -/
theorem constrainToViewport_eq (b : Box) (W H : ℚ) :
    constrainToViewport b W H =
      { left := if b.left + b.width > W then W - b.width
                else if b.left < 0 then 0 else b.left,
        top := if b.top + b.height > H then H - b.height
               else if b.top < 0 then 0 else b.top,
        width := b.width, height := b.height } := by
  unfold constrainToViewport
  split_ifs <;> rfl

/-- Counterexample to C2 as stated: a box of width 200 at left 0 in a
100 wide viewport is sent to left -100 by one clamp pass, but a second
pass reading the resulting box sends it back to 0. -/
theorem spec_C2_counterexample :
    constrainToViewport (constrainToViewport ⟨0, 0, 200, 10⟩ 100 100) 100 100 ≠
      constrainToViewport ⟨0, 0, 200, 10⟩ 100 100 := by
  norm_num [constrainToViewport]

/-- C2 amended: the viewport clamp is idempotent for every popover
bounding box that is no wider and no taller than the viewport; for a
box exceeding a viewport dimension the two passes disagree. -/
theorem spec_C2 (b : Box) (W H : ℚ) (hw : b.width ≤ W) (hh : b.height ≤ H) :
    constrainToViewport (constrainToViewport b W H) W H = constrainToViewport b W H := by
  simp only [constrainToViewport_eq, Box.mk.injEq, and_true]
  constructor <;> split_ifs <;> first | rfl | linarith

/-- Witness for C2 at a 50 by 40 box in a 100 by 100 viewport. -/
theorem spec_C2_witness :
    (⟨-5, -3, 50, 40⟩ : Box).width ≤ 100 ∧ (⟨-5, -3, 50, 40⟩ : Box).height ≤ 100 ∧
    constrainToViewport (constrainToViewport ⟨-5, -3, 50, 40⟩ 100 100) 100 100 =
      constrainToViewport ⟨-5, -3, 50, 40⟩ 100 100 :=
  ⟨by norm_num, by norm_num, spec_C2 ⟨-5, -3, 50, 40⟩ 100 100 (by norm_num) (by norm_num)⟩

/-- Counterexample to C3 as stated: a box with left -50 and width 200 in
a 100 wide viewport has left edge below 0 and right edge beyond the
viewport, yet the clamp leaves its final left at -100, not 0. -/
theorem spec_C3_counterexample :
    (⟨-50, 10, 200, 10⟩ : Box).left < 0 ∧
    (⟨-50, 10, 200, 10⟩ : Box).left + (⟨-50, 10, 200, 10⟩ : Box).width > 100 ∧
    (constrainToViewport ⟨-50, 10, 200, 10⟩ 100 100).left ≠ 0 := by
  norm_num [constrainToViewport]

/-- C3 amended: when the measured box has left edge below 0 and right
edge beyond the viewport width, the single clamp pass sets left to
viewport width minus box width, so the right edge lands exactly on the
viewport right boundary while the left edge still overflows on the
left. -/
theorem spec_C3 (b : Box) (W H : ℚ) (hl : b.left < 0) (hr : b.left + b.width > W) :
    (constrainToViewport b W H).left = W - b.width ∧
    (constrainToViewport b W H).left + (constrainToViewport b W H).width = W ∧
    (constrainToViewport b W H).left < 0 := by
  simp only [constrainToViewport_eq]
  rw [if_pos hr]
  refine ⟨rfl, by ring, by linarith⟩

/-- Witness for C3 at the box with left -50 and width 200 in a 100 by
100 viewport. -/
theorem spec_C3_witness :
    (⟨-50, 10, 200, 10⟩ : Box).left < 0 ∧
    (⟨-50, 10, 200, 10⟩ : Box).left + (⟨-50, 10, 200, 10⟩ : Box).width > 100 ∧
    ((constrainToViewport ⟨-50, 10, 200, 10⟩ 100 100).left = 100 - (⟨-50, 10, 200, 10⟩ : Box).width ∧
     (constrainToViewport ⟨-50, 10, 200, 10⟩ 100 100).left +
       (constrainToViewport ⟨-50, 10, 200, 10⟩ 100 100).width = 100 ∧
     (constrainToViewport ⟨-50, 10, 200, 10⟩ 100 100).left < 0) :=
  ⟨by norm_num, by norm_num, spec_C3 ⟨-50, 10, 200, 10⟩ 100 100 (by norm_num) (by norm_num)⟩

/-- Counterexample to C1 as stated: desired side top, a 40 by 40 popover
with gap 10, available space top 0, right 60, bottom 0, left 500.
Neither top nor bottom has room (0 < 50), both perpendicular sides do
(60 and 500 are at least 50) and left has strictly more space, yet
getBestBasePlacement returns right. -/
theorem spec_C1_counterexample :
    (⟨0, 60, 0, 500⟩ : TAvailableSpace).get .top <
        spaceNeeded ⟨0, 40, 40, 0, 40, 40⟩ 10 .top ∧
    (⟨0, 60, 0, 500⟩ : TAvailableSpace).get .bottom <
        spaceNeeded ⟨0, 40, 40, 0, 40, 40⟩ 10 .bottom ∧
    (⟨0, 60, 0, 500⟩ : TAvailableSpace).right ≥
        spaceNeeded ⟨0, 40, 40, 0, 40, 40⟩ 10 .right ∧
    (⟨0, 60, 0, 500⟩ : TAvailableSpace).left ≥
        spaceNeeded ⟨0, 40, 40, 0, 40, 40⟩ 10 .left ∧
    (⟨0, 60, 0, 500⟩ : TAvailableSpace).left > (⟨0, 60, 0, 500⟩ : TAvailableSpace).right ∧
    getBestBasePlacement .top ⟨0, 60, 0, 500⟩ ⟨0, 40, 40, 0, 40, 40⟩ 10 ≠ .left := by
  norm_num [getBestBasePlacement, spaceNeeded, TAvailableSpace.get, getOppositePlacement]
  decide

/-- C1 amended: when neither the desired side nor its opposite has
enough room but both perpendicular sides do, getBestBasePlacement
returns the perpendicular side checked first in source order: right when
the desired side is on the block axis, bottom when it is on the inline
axis, regardless of which perpendicular side has more space. -/
theorem spec_C1 (desired : TBasePlacement) (a : TAvailableSpace) (popoverRect : Rect)
    (gap : ℚ)
    (hd : a.get desired < spaceNeeded popoverRect gap desired)
    (ho : a.get (getOppositePlacement desired) <
      spaceNeeded popoverRect gap (getOppositePlacement desired)) :
    ((desired = .top ∨ desired = .bottom) → a.right ≥ popoverRect.width + gap →
      a.left ≥ popoverRect.width + gap →
      getBestBasePlacement desired a popoverRect gap = .right) ∧
    ((desired = .left ∨ desired = .right) → a.bottom ≥ popoverRect.height + gap →
      a.top ≥ popoverRect.height + gap →
      getBestBasePlacement desired a popoverRect gap = .bottom) := by
  constructor
  · rintro (rfl | rfl) hr hl
    · simp only [getBestBasePlacement, spaceNeeded, TAvailableSpace.get, getOppositePlacement,
        ge_iff_le] at hd ho ⊢
      rw [if_neg (not_le.mpr hd), if_neg (not_le.mpr ho), if_pos (Or.inl True.intro),
        if_pos (ge_iff_le.mp hr)]
    · simp only [getBestBasePlacement, spaceNeeded, TAvailableSpace.get, getOppositePlacement,
        ge_iff_le] at hd ho ⊢
      rw [if_neg (not_le.mpr hd), if_neg (not_le.mpr ho), if_pos (Or.inr True.intro),
        if_pos (ge_iff_le.mp hr)]
  · rintro (rfl | rfl) hb ht
    · simp only [getBestBasePlacement, spaceNeeded, TAvailableSpace.get, getOppositePlacement,
        ge_iff_le] at hd ho ⊢
      rw [if_neg (not_le.mpr hd), if_neg (not_le.mpr ho), if_neg (by decide),
        if_pos (ge_iff_le.mp hb)]
    · simp only [getBestBasePlacement, spaceNeeded, TAvailableSpace.get, getOppositePlacement,
        ge_iff_le] at hd ho ⊢
      rw [if_neg (not_le.mpr hd), if_neg (not_le.mpr ho), if_neg (by decide),
        if_pos (ge_iff_le.mp hb)]

/-- Witness for C1 at desired side top with available space top 0,
right 60, bottom 0, left 500, a 40 by 40 popover and gap 10. -/
theorem spec_C1_witness :
    getBestBasePlacement .top ⟨0, 60, 0, 500⟩ ⟨0, 40, 40, 0, 40, 40⟩ 10 = .right :=
  (spec_C1 .top ⟨0, 60, 0, 500⟩ ⟨0, 40, 40, 0, 40, 40⟩ 10
      (by norm_num [TAvailableSpace.get, spaceNeeded])
      (by norm_num [TAvailableSpace.get, spaceNeeded, getOppositePlacement])).1
    (Or.inl rfl) (by norm_num) (by norm_num)

/-- The side chosen by the final fallback sort has the maximum available
space among the four sides. -/
theorem mostSpaceSide_max (a : TAvailableSpace) :
    a.get (mostSpaceSide a) ≥ a.top ∧ a.get (mostSpaceSide a) ≥ a.right ∧
    a.get (mostSpaceSide a) ≥ a.bottom ∧ a.get (mostSpaceSide a) ≥ a.left := by
  unfold mostSpaceSide
  split_ifs with h1 h2 h3
  · obtain ⟨x, y, z⟩ := h1
    exact ⟨le_refl _, x, y, z⟩
  · have hrt : a.right ≥ a.top := by
      by_contra hc
      push_neg at hc
      exact h1 ⟨hc.le, by linarith [h2.1], by linarith [h2.2]⟩
    exact ⟨hrt, le_refl _, h2.1, h2.2⟩
  · have hbr : a.bottom ≥ a.right := by
      by_contra hc
      push_neg at hc
      exact h2 ⟨hc.le, by linarith⟩
    have hbt : a.bottom ≥ a.top := by
      by_contra hc
      push_neg at hc
      exact h1 ⟨by linarith, hc.le, by linarith⟩
    exact ⟨hbt, hbr, le_refl _, h3⟩
  · push_neg at h3
    have hlr : a.left ≥ a.right := by
      by_contra hc
      push_neg at hc
      exact h2 ⟨by linarith, hc.le⟩
    have hlt : a.left ≥ a.top := by
      by_contra hc
      push_neg at hc
      exact h1 ⟨by linarith, by linarith, hc.le⟩
    exact ⟨hlt, hlr, h3.le, le_refl _⟩

/-- When no side has enough room, getBestBasePlacement falls through to
the sorted-by-space fallback. -/
theorem getBestBasePlacement_noFit (desired : TBasePlacement) (a : TAvailableSpace)
    (popoverRect : Rect) (gap : ℚ)
    (h1 : a.top < popoverRect.height + gap) (h2 : a.bottom < popoverRect.height + gap)
    (h3 : a.left < popoverRect.width + gap) (h4 : a.right < popoverRect.width + gap) :
    getBestBasePlacement desired a popoverRect gap = mostSpaceSide a := by
  cases desired <;>
    simp_all [getBestBasePlacement, spaceNeeded, TAvailableSpace.get, getOppositePlacement,
      not_le.mpr h1, not_le.mpr h2, not_le.mpr h3, not_le.mpr h4]

/-- C4: getBestBasePlacement is total, always returning one of the four
base placements for any rational inputs, and when no side has enough
room the returned side carries the maximum available space among the
four. -/
theorem spec_C4 (desired : TBasePlacement) (a : TAvailableSpace) (popoverRect : Rect)
    (gap : ℚ) :
    (getBestBasePlacement desired a popoverRect gap = .top ∨
     getBestBasePlacement desired a popoverRect gap = .right ∨
     getBestBasePlacement desired a popoverRect gap = .bottom ∨
     getBestBasePlacement desired a popoverRect gap = .left) ∧
    (a.top < popoverRect.height + gap → a.bottom < popoverRect.height + gap →
     a.left < popoverRect.width + gap → a.right < popoverRect.width + gap →
     a.get (getBestBasePlacement desired a popoverRect gap) ≥ a.top ∧
     a.get (getBestBasePlacement desired a popoverRect gap) ≥ a.right ∧
     a.get (getBestBasePlacement desired a popoverRect gap) ≥ a.bottom ∧
     a.get (getBestBasePlacement desired a popoverRect gap) ≥ a.left) := by
  constructor
  · cases h : getBestBasePlacement desired a popoverRect gap <;> simp
  · intro h1 h2 h3 h4
    rw [getBestBasePlacement_noFit desired a popoverRect gap h1 h2 h3 h4]
    exact mostSpaceSide_max a

/-- Witness for C4 at desired side top with all-negative available
space top -5, right -3, bottom -10, left -2: the fallback picks left,
the side with the most space. -/
theorem spec_C4_witness :
    (getBestBasePlacement .top ⟨-5, -3, -10, -2⟩ ⟨0, 40, 40, 0, 40, 40⟩ 10 = .top ∨
     getBestBasePlacement .top ⟨-5, -3, -10, -2⟩ ⟨0, 40, 40, 0, 40, 40⟩ 10 = .right ∨
     getBestBasePlacement .top ⟨-5, -3, -10, -2⟩ ⟨0, 40, 40, 0, 40, 40⟩ 10 = .bottom ∨
     getBestBasePlacement .top ⟨-5, -3, -10, -2⟩ ⟨0, 40, 40, 0, 40, 40⟩ 10 = .left) ∧
    ((⟨-5, -3, -10, -2⟩ : TAvailableSpace).get
        (getBestBasePlacement .top ⟨-5, -3, -10, -2⟩ ⟨0, 40, 40, 0, 40, 40⟩ 10) ≥ -5 ∧
     (⟨-5, -3, -10, -2⟩ : TAvailableSpace).get
        (getBestBasePlacement .top ⟨-5, -3, -10, -2⟩ ⟨0, 40, 40, 0, 40, 40⟩ 10) ≥ -3 ∧
     (⟨-5, -3, -10, -2⟩ : TAvailableSpace).get
        (getBestBasePlacement .top ⟨-5, -3, -10, -2⟩ ⟨0, 40, 40, 0, 40, 40⟩ 10) ≥ -10 ∧
     (⟨-5, -3, -10, -2⟩ : TAvailableSpace).get
        (getBestBasePlacement .top ⟨-5, -3, -10, -2⟩ ⟨0, 40, 40, 0, 40, 40⟩ 10) ≥ -2) :=
  ⟨(spec_C4 .top ⟨-5, -3, -10, -2⟩ ⟨0, 40, 40, 0, 40, 40⟩ 10).1,
   (spec_C4 .top ⟨-5, -3, -10, -2⟩ ⟨0, 40, 40, 0, 40, 40⟩ 10).2
     (by norm_num) (by norm_num) (by norm_num) (by norm_num)⟩

/-- The measured placement style writer leaves every style property of
the popover other than top and left untouched. -/
theorem applyPlacementStylesMeasured_frame (s : InlineStyle) (placement : TBasePlacement)
    (position : TPosition) (triggerRect popoverRect : Rect) :
    (applyPlacementStylesMeasured s placement position triggerRect popoverRect).rest = s.rest ∧
    (applyPlacementStylesMeasured s placement position triggerRect popoverRect).position =
      s.position ∧
    (applyPlacementStylesMeasured s placement position triggerRect popoverRect).transform =
      s.transform := by
  cases placement <;> exact ⟨rfl, rfl, rfl⟩

/-- The style-level viewport clamp only rewrites top and left. -/
theorem constrainToViewportStyle_frame (s : InlineStyle) (measured : Box) (W H : ℚ) :
    (constrainToViewportStyle s measured W H).rest = s.rest ∧
    (constrainToViewportStyle s measured W H).position = s.position ∧
    (constrainToViewportStyle s measured W H).transform = s.transform := by
  unfold constrainToViewportStyle
  split_ifs <;> exact ⟨rfl, rfl, rfl⟩

/-- The transform-based placement style writer leaves every style
property of the popover other than top, left and transform untouched. -/
theorem applyPlacementStylesTransform_frame (s : InlineStyle) (placement : TBasePlacement)
    (position : TPosition) (triggerRect : Rect) :
    (applyPlacementStylesTransform s placement position triggerRect).rest = s.rest := by
  cases placement <;> cases position <;> rfl

/-- The arrow-aware pass leaves every style property of the popover
other than the six positioning properties untouched. -/
theorem applyPlacementArrow_rest (popover trigger : InlineStyle) (actualPlacement : String)
    (triggerRect : Rect) :
    (applyPlacementArrow popover trigger actualPlacement triggerRect).1.rest =
      popover.rest := by
  unfold applyPlacementArrow
  dsimp only
  split_ifs <;> rfl

/-- C9: every placement pass of the fallback positioning engine — the
measured pass of fallback-positioning.ts, the transform-based pass and
the arrow-aware pass — returns the trigger style unchanged and changes
none of the popover style properties outside position, top, left,
right, bottom and transform. -/
theorem spec_C9 (popover trigger : InlineStyle) (triggerRect popoverRect : Rect)
    (position : TPosition) (measuredAfterApply : Box) (W H : ℚ)
    (actualPlacement : String) :
    (applyPlacementMeasured popover trigger triggerRect popoverRect position
        measuredAfterApply W H).2 = trigger ∧
    (applyPlacementMeasured popover trigger triggerRect popoverRect position
        measuredAfterApply W H).1.rest = popover.rest ∧
    (applyPlacementTransform popover trigger triggerRect position W H).2 = trigger ∧
    (applyPlacementTransform popover trigger triggerRect position W H).1.rest =
      popover.rest ∧
    (applyPlacementArrow popover trigger actualPlacement triggerRect).2 = trigger ∧
    (applyPlacementArrow popover trigger actualPlacement triggerRect).1.rest =
      popover.rest := by
  refine ⟨rfl, ?_, rfl, ?_, rfl, applyPlacementArrow_rest popover trigger actualPlacement
    triggerRect⟩
  · show (constrainToViewportStyle (applyPlacementStylesMeasured _ _ _ _ _) _ _ _).rest = _
    rw [(constrainToViewportStyle_frame _ _ _ _).1,
      (applyPlacementStylesMeasured_frame _ _ _ _ _).1]
  · show (applyPlacementStylesTransform _ _ _ _).rest = _
    rw [applyPlacementStylesTransform_frame]

/-- Invariant of the per-frame loop: any queued frame carries the id
stored in the frameId variable, and once isRunning is cleared no frame
is queued. -/
def FrameInv (s : FrameState) : Prop :=
  (∀ i, s.pending = some i → i = s.frameId) ∧ (s.isRunning = false → s.pending = none)

/-- Every host step preserves the per-frame invariant. -/
theorem frameStep_inv {s : FrameState} (h : FrameInv s) (a : FrameAct) :
    FrameInv (frameStep a s) := by
  obtain ⟨hid, hstop⟩ := h
  cases a with
  | fire =>
    cases hp : s.pending with
    | none => simpa [frameStep, hp] using ⟨hid, hstop⟩
    | some i =>
      by_cases hrun : s.isRunning
      · simp [frameStep, hp, hrun, FrameInv]
      · simp only [Bool.not_eq_true] at hrun
        exact absurd (hstop hrun) (by simp [hp])
  | fireDisposing =>
    cases hp : s.pending with
    | none => simpa [frameStep, hp] using ⟨hid, hstop⟩
    | some i =>
      constructor
      · intro j hj
        simp [frameStep, hp, cancelFrame] at hj
      · intro _
        simp [frameStep, hp, cancelFrame]
  | dispose =>
    by_cases hc : s.pending = some s.frameId
    · constructor
      · intro j hj
        simp [frameStep, cancelFrame, hc] at hj
      · intro _
        simp [frameStep, cancelFrame, hc]
    · have hp : s.pending = none := by
        cases hp : s.pending with
        | none => rfl
        | some i => exact absurd (hp.trans (by rw [hid i hp])) hc
      constructor
      · intro j hj
        simp [frameStep, cancelFrame, hc, hp] at hj
      · intro _
        simp [frameStep, cancelFrame, hc, hp]

/-- The per-frame invariant is preserved by any run. -/
theorem frameRun_inv_of (acts : List FrameAct) (s : FrameState) (h : FrameInv s) :
    FrameInv (frameRun acts s) := by
  induction acts generalizing s with
  | nil => exact h
  | cons a l ih => exact ih (frameStep a s) (frameStep_inv h a)

/-- The per-frame invariant holds after any run from the initial
state. -/
theorem frameRun_inv (acts : List FrameAct) : FrameInv (frameRun acts frameInit) := by
  refine frameRun_inv_of acts frameInit ⟨?_, ?_⟩
  · intro i hi
    simpa [frameInit] using hi.symm
  · intro h
    simp [frameInit] at h

/-- Once a stopped state is reached, every further host step of the
per-frame loop leaves the state unchanged. -/
theorem frameStep_stopped {s : FrameState} (hInv : FrameInv s)
    (h : s.isRunning = false) (a : FrameAct) : frameStep a s = s := by
  have hp : s.pending = none := hInv.2 h
  cases a with
  | fire => simp [frameStep, hp]
  | fireDisposing => simp [frameStep, hp]
  | dispose =>
    have hs : { s with isRunning := false } = s := by
      cases s
      simp_all
    rw [frameStep, hs, cancelFrame, hp]
    simp

/-- A whole run from a stopped state leaves the state unchanged. -/
theorem frameRun_stopped (acts : List FrameAct) (s : FrameState) (hInv : FrameInv s)
    (h : s.isRunning = false) : frameRun acts s = s := by
  induction acts with
  | nil => rfl
  | cons a l ih =>
    show frameRun l (frameStep a s) = s
    rw [frameStep_stopped hInv h a]
    exact ih

/-- Once the listeners are unbound, every further host step of the
on-change binding leaves the state unchanged. -/
theorem changeStep_stopped {s : ChangeState} (h : s.bound = false) (a : ChangeAct) :
    changeStep a s = s := by
  cases a with
  | event => simp [changeStep, h]
  | eventDisposing => simp [changeStep, h]
  | dispose =>
    rw [changeStep]
    cases s
    simp_all

/-- A whole run from an unbound state leaves the state unchanged. -/
theorem changeRun_stopped (acts : List ChangeAct) (s : ChangeState)
    (h : s.bound = false) : changeRun acts s = s := by
  induction acts with
  | nil => rfl
  | cons a l ih =>
    show changeRun l (changeStep a s) = s
    rw [changeStep_stopped h a]
    exact ih

/-- C8: for both update strategies, once the returned cleanup has run —
whether invoked between passes or from inside an update pass, and even
with a frame or event queued at that moment — the binding state,
including its count of placement passes, never changes again under any
further host activity; in particular no further placement pass or style
mutation runs and a second cleanup invocation has no additional
effect. -/
theorem spec_C8 :
    (∀ (acts1 acts2 : List FrameAct),
      (frameRun acts1 frameInit).isRunning = false →
        frameRun acts2 (frameRun acts1 frameInit) = frameRun acts1 frameInit) ∧
    (∀ (acts1 acts2 : List ChangeAct),
      (changeRun acts1 changeInit).bound = false →
        changeRun acts2 (changeRun acts1 changeInit) = changeRun acts1 changeInit) :=
  ⟨fun acts1 acts2 h => frameRun_stopped acts2 _ (frameRun_inv acts1) h,
   fun _acts1 acts2 h => changeRun_stopped acts2 _ h⟩

/-- Witness for C8: a frame binding that runs one pass and is then
disposed ignores a later queued frame, and an on-change binding whose
update function disposes it mid-pass ignores a later event and a second
dispose. -/
theorem spec_C8_witness :
    (frameRun [FrameAct.fire, FrameAct.dispose] frameInit).isRunning = false ∧
    frameRun [FrameAct.fire] (frameRun [FrameAct.fire, FrameAct.dispose] frameInit) =
      frameRun [FrameAct.fire, FrameAct.dispose] frameInit ∧
    (changeRun [ChangeAct.eventDisposing] changeInit).bound = false ∧
    changeRun [ChangeAct.event, ChangeAct.dispose]
        (changeRun [ChangeAct.eventDisposing] changeInit) =
      changeRun [ChangeAct.eventDisposing] changeInit :=
  ⟨by decide, spec_C8.1 [FrameAct.fire, FrameAct.dispose] [FrameAct.fire] (by decide),
   by decide, spec_C8.2 [ChangeAct.eventDisposing] [ChangeAct.event, ChangeAct.dispose]
     (by decide)⟩
